import Mathlib

/-
Verification of the dynamic request-batching aggregator in
functions/nsfw-detector/main_batch.py (and, where noted, main_optimized.py).

The embedding models, directly from the source:
  - the results table (a python dict) as an association list with shadowing
    inserts and a filtering erase;
  - `_detect_batch` (main_batch.py lines 91-128) with the batched model forward
    pass and the per-row postprocessing abstracted as parameters, instrumented
    with the number of preprocessor+model invocations;
  - the aggregator flush and its exception handler (lines 160-178);
  - the collection loop and its timing (lines 135-158) over a discrete
    timeline of arrival instants, in milliseconds;
  - `_process_with_batch` (lines 269-300) and the surrounding handler error
    path (lines 260-266);
  - the intake queue with python `queue.Queue` semantics (maxsize 0 means
    unbounded), as used at main_batch.py line 31 and main_optimized.py line 38;
  - the configuration defaults read from the environment
    (main_batch.py line 27, main_optimized.py lines 31-35);
  - thread interleavings of the aggregator flush and the fallback path, to
    settle the single-flight property.
-/

namespace Faas

set_option maxRecDepth 4000

/-! ## Result table: python dict embedded as an association list.
Insertion conses (lookup takes the most recent binding, so assignment
shadows, matching dict overwrite); erase removes every binding of the key,
matching `dict.pop`. -/

def mapLookup : List (Nat × Nat) → Nat → Option Nat
  | [], _ => none
  | (a, b) :: rest, k => if a = k then some b else mapLookup rest k

def mapInsert (m : List (Nat × Nat)) (k v : Nat) : List (Nat × Nat) :=
  (k, v) :: m

def mapErase : List (Nat × Nat) → Nat → List (Nat × Nat)
  | [], _ => []
  | (a, b) :: rest, k => if a = k then mapErase rest k else (a, b) :: mapErase rest k

/-! ## _detect_batch (main_batch.py lines 91-128; main_optimized.py 148-184).
`modelRows` abstracts the batched preprocessing + forward pass + softmax
(lines 101-109): it yields one probability row per input image, order
preserved by the external adapter contract. `post` abstracts the per-row
postprocessing loop body (lines 114-126), which reads only `probabilities[i]`
for result i. The second component counts how many times the preprocessor
and model were invoked, so that the early return on an empty batch
(lines 95-96) is observable. -/

def detectBatch (modelRows : List Nat → List Nat) (post : Nat → Nat)
    (images : List Nat) : List Nat × Nat :=
  if images.isEmpty then ([], 0)
  else
    let probabilities := modelRows images
    (((List.range images.length).map fun i => post (probabilities.getD i 0)), 1)

/-! ## Result distribution (main_batch.py lines 169-173).
For each i, `results_map[batch_items[i].request_id] = results[i]`, in order.
Items are represented by their request ids; the images already went to the
adapter. -/

def distributeResults : List Nat → List Nat → List (Nat × Nat) → List (Nat × Nat)
  | [], _, m => m
  | _ :: _, [], m => m
  | r :: rs, v :: vs, m => distributeResults rs vs (mapInsert m r v)

/-! ## Aggregator flush (main_batch.py lines 160-178).
On adapter success each item gets its result stored (line 172) and its event
set (line 173); on an adapter exception the handler (lines 175-178) sets every
item event and stores nothing. `signaled` records, in order, the request ids
whose events have been set. -/

structure AggState where
  resultsMap : List (Nat × Nat)
  signaled : List Nat
  deriving Repr, DecidableEq

def flushBatch (adapter : List Nat → Except String (List Nat))
    (imgs rids : List Nat) (st : AggState) : AggState :=
  match adapter imgs with
  | .ok results =>
      { resultsMap := distributeResults rids results st.resultsMap,
        signaled := st.signaled ++ rids }
  | .error _ =>
      { resultsMap := st.resultsMap, signaled := st.signaled ++ rids }

/-- The aggregator loop (main_batch.py line 135: `while True`) restricted to a
finite schedule of collected batches: each batch is flushed in turn, and since
the exception handler is inside the loop body, a failed flush never stops the
processing of later batches. -/
def runAggregator (adapter : List Nat → Except String (List Nat)) :
    List (List Nat × List Nat) → AggState → AggState
  | [], st => st
  | (imgs, rids) :: rest, st => runAggregator adapter rest (flushBatch adapter imgs rids st)

/-! ## Caller side after waking (main_batch.py lines 291-300 and 260-266).
The caller pops its request id from the results map; if nothing was delivered
it calls `_detect_batch([image])[0]` directly. An exception raised there
propagates out of `_process_with_batch` into `handler`, whose catch-all
(lines 260-266) returns a 500 error response. -/

inductive HandlerResponse where
  | ok (r : Nat)
  | err (code : Nat) (msg : String)
  deriving Repr, DecidableEq

def callerFinish (adapter : List Nat → Except String (List Nat))
    (img : Nat) (popped : Option Nat) : HandlerResponse :=
  match popped with
  | some r => .ok r
  | none =>
    match adapter [img] with
    | .ok rs => .ok (rs.getD 0 0)
    | .error e => .err 500 e

/-! ## _process_with_batch (main_batch.py lines 269-300).
`accepted` is the outcome of `request_queue.put(item, timeout=5)` (line 285):
false means `queue.Full` was raised. `popped` is the value of
`results_map.pop(request_id, None)` after `event.wait(timeout=30)` (lines
291-294). On rejection (line 288) or a missing result (line 298) the caller
falls back to `_detect_batch([image])[0]` on its own image. -/

def processWithBatch (modelRows : List Nat → List Nat) (post : Nat → Nat)
    (img : Nat) (accepted : Bool) (popped : Option Nat) : Nat :=
  if accepted then
    match popped with
    | some r => r
    | none => ((detectBatch modelRows post [img]).1).getD 0 0
  else ((detectBatch modelRows post [img]).1).getD 0 0

/-! ## Operations ever performed on results_map (main_batch.py).
The module touches `results_map` in exactly two places: the aggregator write
`results_map[request_id] = results[i]` (line 172) and the caller read-remove
`results_map.pop(request_id, None)` (line 294). The operation language has
exactly those two actions. -/

inductive MapOp where
  | deliver (rid v : Nat)
  | pop (rid : Nat)
  deriving DecidableEq, Repr

def applyOp (m : List (Nat × Nat)) : MapOp → List (Nat × Nat)
  | .deliver r v => mapInsert m r v
  | .pop r => mapErase m r

def runOps (m : List (Nat × Nat)) (ops : List MapOp) : List (Nat × Nat) :=
  ops.foldl applyOp m

/-! ## Collection loop timing (main_batch.py lines 135-158).
Discrete timeline in milliseconds. `start_time = time.time()` is taken at line
140, at the top of the outer loop iteration, BEFORE any item of the batch has
been seen; `deadline = start + BATCH_TIMEOUT_MS`. The inner `while` keeps
taking items while `len(batch_items) < BATCH_SIZE`; it breaks when the
deadline has passed and at least one item is held (lines 147-148, 155-157);
with no item held it keeps polling past the deadline in 1 millisecond waits
(line 151), taking the next item whenever it arrives.

`collect bs deadline taken now arrivals` runs that inner loop: `taken` holds
the arrival instants of items already in the batch, `now` is the current
time, `arrivals` the future queue arrivals in FIFO order. It returns the
batch, the flush instant, and the arrivals left for the next cycle; `none`
means the loop polls forever (no item ever arrives). The 1 ms poll
granularity is idealized to 0: an item arriving after the deadline is taken
at its arrival instant and the loop then breaks immediately. -/

def collect (bs deadline : Nat) (taken : List Nat) (now : Nat) :
    List Nat → Option (List Nat × Nat × List Nat)
  | [] =>
    if taken.length = 0 then none
    else if bs ≤ taken.length then some (taken, now, [])
    else some (taken, max now deadline, [])
  | a :: rest =>
    if bs ≤ taken.length then some (taken, now, a :: rest)
    else if deadline ≤ now ∧ 0 < taken.length then some (taken, now, a :: rest)
    else if a ≤ deadline ∨ taken.length = 0 then
      collect bs deadline (taken ++ [a]) (max now a) rest
    else some (taken, deadline, a :: rest)

/-- Successive collection cycles of the `while True` loop (line 135): each
cycle restamps `start_time` (line 140) at the instant the previous flush
finished (the flush itself is idealized as instantaneous) and collects again.
Fueled by the number of pending arrivals, since each completed cycle consumes
at least one of them. -/
def cyclesAux (bs timeoutMs : Nat) : Nat → Nat → List Nat → List (List Nat × Nat)
  | 0, _, _ => []
  | fuel + 1, start, arrivals =>
    match collect bs (start + timeoutMs) [] start arrivals with
    | none => []
    | some (batch, t, rest) => (batch, t) :: cyclesAux bs timeoutMs fuel t rest

def cycles (bs timeoutMs start : Nat) (arrivals : List Nat) : List (List Nat × Nat) :=
  cyclesAux bs timeoutMs arrivals.length start arrivals

/-! ## Intake queue (main_batch.py line 31; main_optimized.py lines 33, 38).
Python `queue.Queue` semantics: a maxsize that is zero (or negative) means an
unbounded queue, so `put` never blocks; with a positive maxsize, `put` with a
timeout succeeds only if the queue is below maxsize within the wait budget.
main_batch.py builds `queue.Queue()` (maxsize 0, unbounded); main_optimized.py
builds `queue.Queue(maxsize=MAX_QUEUE_SIZE)`. An offer here is a `put` whose
whole wait budget elapses with no consumer progress. -/

def queueAccepts (maxsize size : Nat) : Bool :=
  maxsize = 0 || size < maxsize

def mainBatchQueueMaxsize : Nat := 0

/-- main_optimized.py line 33: MAX_QUEUE_SIZE = int(os.getenv("MAX_QUEUE_SIZE", "100")). -/
def maxQueueSize (env : Option Nat) : Nat := env.getD 100

inductive QOp where
  | offer
  | take
  deriving DecidableEq, Repr

def qstep (maxsize : Nat) (size : Nat) : QOp → Nat
  | .offer => if queueAccepts maxsize size then size + 1 else size
  | .take => size - 1

/-- Queue occupancy reached from empty after a sequence of offers and takes. -/
def qrun (maxsize : Nat) (ops : List QOp) : Nat :=
  ops.foldl (qstep maxsize) 0

/-- n simultaneous offers against an initially empty queue with no consumer
progress during the wait budget: returns (admitted, rejected). -/
def runOffers (maxsize n : Nat) : Nat × Nat :=
  let s := qrun maxsize (List.replicate n QOp.offer)
  (s, n - s)

/-! ## Configuration defaults (main_batch.py lines 27, 81; main_optimized.py
lines 31, 35, 270). The environment value is modelled after `int` conversion;
`none` is an unset variable. -/

/-- main_batch.py line 27: BATCH_SIZE = int(os.getenv("BATCH_SIZE", "4")). -/
def mainBatchBatchSize (env : Option Nat) : Nat := env.getD 4

/-- main_batch.py line 81: the aggregator thread is started iff BATCH_SIZE > 1. -/
def mainBatchStartsAggregator (env : Option Nat) : Bool :=
  decide (1 < mainBatchBatchSize env)

/-- main_optimized.py line 31: BATCH_SIZE = int(os.getenv("BATCH_SIZE", "1")). -/
def mainOptimizedBatchSize (env : Option Nat) : Nat := env.getD 1

/-- main_optimized.py line 35: USE_DYNAMIC_BATCH = BATCH_SIZE > 1; line 107
starts the aggregator thread iff USE_DYNAMIC_BATCH. -/
def useDynamicBatch (env : Option Nat) : Bool :=
  decide (1 < mainOptimizedBatchSize env)

inductive ExecPath where
  | direct
  | queued
  deriving DecidableEq, Repr

/-- main_optimized.py lines 270-301: the handler queues the request iff
USE_DYNAMIC_BATCH, otherwise calls `_detect_single` directly. -/
def mainOptimizedHandlerPath (env : Option Nat) : ExecPath :=
  if useDynamicBatch env then .queued else .direct

/-! ## Thread interleavings of model invocations.
Each model invocation is a beginCall/endCall event pair tagged with a thread
id. The aggregator flush (main_batch.py lines 160-173) performs one
`_detect_batch` call and then takes and releases `map_lock` to write results;
the fallback path (lines 288 and 298) performs one `_detect_batch` call with
no lock held. A schedule of the two threads is any merge of their event
sequences; `lockOk` keeps only merges that respect mutual exclusion of the
lock, and `hasOverlap` detects an instant at which two calls are in flight. -/

inductive Ev where
  | beginCall (tid : Nat)
  | endCall (tid : Nat)
  | acq (tid : Nat)
  | rel (tid : Nat)
  deriving DecidableEq, Repr

def mergesAux : Nat → List Ev → List Ev → List (List Ev)
  | 0, xs, ys => [xs ++ ys]
  | _, [], ys => [ys]
  | _, xs, [] => [xs]
  | fuel + 1, x :: xs, y :: ys =>
      (mergesAux fuel xs (y :: ys)).map (fun t => x :: t) ++
      (mergesAux fuel (x :: xs) ys).map (fun t => y :: t)

def merges (xs ys : List Ev) : List (List Ev) :=
  mergesAux (xs.length + ys.length) xs ys

def lockOkAux : Option Nat → List Ev → Bool
  | _, [] => true
  | owner, Ev.acq t :: rest =>
      match owner with
      | none => lockOkAux (some t) rest
      | some _ => false
  | owner, Ev.rel t :: rest =>
      match owner with
      | some u => u = t && lockOkAux none rest
      | none => false
  | owner, _ :: rest => lockOkAux owner rest

def lockOk (tr : List Ev) : Bool := lockOkAux none tr

def overlapAux : List Nat → List Ev → Bool
  | _, [] => false
  | inflight, Ev.beginCall t :: rest =>
      2 ≤ (t :: inflight).length || overlapAux (t :: inflight) rest
  | inflight, Ev.endCall t :: rest => overlapAux (inflight.erase t) rest
  | inflight, _ :: rest => overlapAux inflight rest

def hasOverlap (tr : List Ev) : Bool := overlapAux [] tr

/-- Aggregator thread, one flush iteration (main_batch.py lines 160-173):
the `_detect_batch` call, then the map write under `map_lock`. -/
def aggFlushProg : List Ev := [.beginCall 0, .endCall 0, .acq 0, .rel 0]

/-- Fallback caller (main_batch.py line 288 or 298): a direct `_detect_batch`
call, performed while holding no lock. -/
def fallbackProg : List Ev := [.beginCall 1, .endCall 1]

/-- A schedule in which the fallback call begins after the aggregator's batch
call begins and ends before it ends: both invocations are in flight at once. -/
def overlappingTrace : List Ev :=
  [.beginCall 0, .beginCall 1, .endCall 1, .endCall 0, .acq 0, .rel 0]

/-! ## Helper lemmas about the result table. -/

theorem mapLookup_insert_self (m : List (Nat × Nat)) (k v : Nat) :
    mapLookup (mapInsert m k v) k = some v := by
  simp [mapInsert, mapLookup]

theorem mapLookup_insert_ne (m : List (Nat × Nat)) (k v k2 : Nat) (h : k ≠ k2) :
    mapLookup (mapInsert m k v) k2 = mapLookup m k2 := by
  simp [mapInsert, mapLookup, h]

theorem mapLookup_erase_ne (m : List (Nat × Nat)) (k k2 : Nat) (h : k ≠ k2) :
    mapLookup (mapErase m k) k2 = mapLookup m k2 := by
  induction m with
  | nil => rfl
  | cons p rest ih =>
    rcases p with ⟨a, b⟩
    by_cases hak : a = k
    · subst hak
      simp [mapErase, mapLookup, h, ih]
    · simp only [mapErase, if_neg hak]
      by_cases hak2 : a = k2
      · simp [mapLookup, hak2]
      · simp [mapLookup, hak2, ih]

theorem mapLookup_distribute_notmem (rs : List Nat) (vs : List Nat)
    (m : List (Nat × Nat)) (k : Nat) (hk : k ∉ rs) :
    mapLookup (distributeResults rs vs m) k = mapLookup m k := by
  induction rs generalizing vs m with
  | nil => rfl
  | cons r rest ih =>
    cases vs with
    | nil => rfl
    | cons v vtl =>
      have hkr : r ≠ k := fun he => hk (he ▸ List.mem_cons_self r rest)
      rw [distributeResults, ih vtl _ (fun hmem => hk (List.mem_cons_of_mem r hmem))]
      exact mapLookup_insert_ne m r v k hkr

theorem mapLookup_distribute_get (rs vs : List Nat) (m : List (Nat × Nat)) (i : Nat)
    (hnd : rs.Nodup) (hlen : rs.length = vs.length) (hi : i < rs.length) :
    mapLookup (distributeResults rs vs m) (rs.getD i 0) = some (vs.getD i 0) := by
  induction rs generalizing vs m i with
  | nil => exact absurd hi (by simp)
  | cons r rest ih =>
    cases vs with
    | nil => exact absurd hlen (by simp)
    | cons v vtl =>
      cases i with
      | zero =>
        rw [distributeResults]
        simp only [List.getD_cons_zero]
        have hr : r ∉ rest := (List.nodup_cons.mp hnd).1
        rw [mapLookup_distribute_notmem rest vtl _ r hr]
        exact mapLookup_insert_self m r v
      | succ j =>
        rw [distributeResults]
        simp only [List.getD_cons_succ]
        exact ih vtl (mapInsert m r v) j (List.nodup_cons.mp hnd).2
          (by simpa using Nat.succ_injective (by simpa using hlen))
          (by simpa using Nat.lt_of_succ_lt_succ hi)

/-- C6: for every batch of n inputs, `_detect_batch` returns exactly n results,
result i is the postprocessing of the adapter row for input i (main_batch.py
lines 111-128), and when the aggregator distributes results back by request_id
(lines 169-173) the entry stored for the item at position i is exactly
result i, provided the request ids are distinct. -/
theorem C6_batch_order_preserved (mr : List Nat → List Nat) (post : Nat → Nat)
    (images rids : List Nat) (m : List (Nat × Nat)) (i : Nat)
    (hr : rids.length = images.length) (hnd : rids.Nodup) (hi : i < images.length) :
    ((detectBatch mr post images).1).length = images.length ∧
    ((detectBatch mr post images).1).getD i 0 = post ((mr images).getD i 0) ∧
    mapLookup (distributeResults rids (detectBatch mr post images).1 m) (rids.getD i 0)
      = some (post ((mr images).getD i 0)) := by
  cases images with
  | nil => exact absurd hi (by simp)
  | cons im tl =>
    have hres : (detectBatch mr post (im :: tl)).1
        = (List.range (im :: tl).length).map fun j => post ((mr (im :: tl)).getD j 0) := by
      simp [detectBatch]
    have hlen : ((detectBatch mr post (im :: tl)).1).length = (im :: tl).length := by
      rw [hres]; simp
    have hget : ((detectBatch mr post (im :: tl)).1).getD i 0
        = post ((mr (im :: tl)).getD i 0) := by
      rw [hres, List.getD_eq_getElem _ _ (by simpa using hi)]
      simp
    refine ⟨hlen, hget, ?_⟩
    rw [mapLookup_distribute_get rids _ m i hnd (by rw [hlen, hr]) (by rw [hr]; exact hi)]
    rw [hget]

/-- Witness for C6 at a concrete batch of three inputs. -/
theorem C6_batch_order_preserved_witness :
    ((detectBatch (fun l => l.map fun x => x * 10) (fun x => x + 1) [3, 4, 5]).1).length = 3 ∧
    ((detectBatch (fun l => l.map fun x => x * 10) (fun x => x + 1) [3, 4, 5]).1).getD 1 0 = 41 ∧
    mapLookup
      (distributeResults [7, 8, 9]
        (detectBatch (fun l => l.map fun x => x * 10) (fun x => x + 1) [3, 4, 5]).1 []) 8
      = some 41 :=
  C6_batch_order_preserved (fun l => l.map fun x => x * 10) (fun x => x + 1)
    [3, 4, 5] [7, 8, 9] [] 1 (by decide) (by decide) (by decide)

/-- C10: `_detect_batch` on the empty list returns the empty list and performs
zero preprocessor/model invocations (main_batch.py lines 95-96,
main_optimized.py lines 152-153). -/
theorem C10_empty_batch_no_invocation (mr : List Nat → List Nat) (post : Nat → Nat) :
    detectBatch mr post [] = ([], 0) := rfl

/-- Once a request id is present in the results table, any further sequence of
the two operations the module performs on the table keeps it present, as long
as none of them is a pop of that very id. -/
theorem runOps_preserves_some (ops : List MapOp) (m : List (Nat × Nat)) (rid : Nat)
    (hs : (mapLookup m rid).isSome = true)
    (hops : ∀ op ∈ ops, op ≠ MapOp.pop rid) :
    (mapLookup (runOps m ops) rid).isSome = true := by
  induction ops generalizing m with
  | nil => exact hs
  | cons op rest ih =>
    have hstep : (mapLookup (applyOp m op) rid).isSome = true := by
      cases op with
      | deliver r v =>
        by_cases hr : r = rid
        · subst hr
          simp [applyOp, mapLookup_insert_self]
        · simpa [applyOp, mapLookup_insert_ne m r v rid hr] using hs
      | pop r =>
        have hr : r ≠ rid := by
          intro he
          exact (hops _ (List.mem_cons_self _ _)) (by rw [he])
        simpa [applyOp, mapLookup_erase_ne m r rid hr] using hs
    exact ih (applyOp m op) hstep (fun o ho => hops o (List.mem_cons_of_mem op ho))

/-- C9: the results table is cleaned only by the originating caller's pop
(main_batch.py line 294). A result delivered for a request id (line 172) after
that caller has already stopped waiting stays in the table for the rest of the
trace, since no later operation pops that id (the caller pops at most once,
and nothing else ever removes entries). -/
theorem C9_late_delivery_persists (pre tail2 : List MapOp) (m : List (Nat × Nat))
    (rid v : Nat) (htail : ∀ op ∈ tail2, op ≠ MapOp.pop rid) :
    (mapLookup (runOps m (pre ++ MapOp.deliver rid v :: tail2)) rid).isSome = true := by
  rw [runOps, List.foldl_append]
  show (mapLookup (runOps (applyOp (runOps m pre) (MapOp.deliver rid v)) tail2) rid).isSome = true
  exact runOps_preserves_some tail2 _ rid (by simp [applyOp, mapLookup_insert_self]) htail

/-- Witness for C9: the owner of id 5 pops before delivery; the late delivery
of id 5 survives a later delivery and pop of an unrelated id 9. -/
theorem C9_late_delivery_persists_witness :
    (mapLookup
      (runOps [] ([MapOp.pop 5] ++ MapOp.deliver 5 42 :: [MapOp.deliver 9 1, MapOp.pop 9]))
      5).isSome = true :=
  C9_late_delivery_persists [MapOp.pop 5] [MapOp.deliver 9 1, MapOp.pop 9] [] 5 42 (by decide)

/-- C1 counterexample: a failed flush (main_batch.py lines 175-178) sets the
item event but stores no error result: request id 7 is signaled while the
results table still has no entry for it, so the caller is woken without any
failure marker having been written for its request id. -/
theorem C1_failed_flush_no_marker_counterexample :
    7 ∈ (flushBatch (fun _ => Except.error "boom") [3] [7] ⟨[], []⟩).signaled ∧
    mapLookup (flushBatch (fun _ => Except.error "boom") [3] [7] ⟨[], []⟩).resultsMap 7
      = none := by
  decide

/-- C1 amended: on an adapter failure every WorkItem of the batch has its wait
handle signaled, but no result of any kind is stored in the results table
(it is left exactly as it was); the woken caller finds nothing and takes the
direct fallback path. -/
theorem C1_failed_flush_signals_all_without_result
    (adapter : List Nat → Except String (List Nat)) (imgs rids : List Nat)
    (st : AggState) (e : String) (hfail : adapter imgs = Except.error e) :
    (flushBatch adapter imgs rids st).signaled = st.signaled ++ rids ∧
    (flushBatch adapter imgs rids st).resultsMap = st.resultsMap := by
  simp [flushBatch, hfail]

/-- Witness for the amended C1 at a concrete failing adapter. -/
theorem C1_failed_flush_signals_all_without_result_witness :
    (flushBatch (fun _ => Except.error "boom") [3] [9] ⟨[], []⟩).signaled = [] ++ [9] ∧
    (flushBatch (fun _ => Except.error "boom") [3] [9] ⟨[], []⟩).resultsMap = [] :=
  C1_failed_flush_signals_all_without_result (fun _ => Except.error "boom")
    [3] [9] ⟨[], []⟩ "boom" rfl

/-- With an always-failing adapter, the aggregator loop leaves the results
table untouched across any number of flushed batches. -/
theorem runAggregator_fail_resultsMap (adapter : List Nat → Except String (List Nat))
    (e : String) (hfail : ∀ l, adapter l = Except.error e)
    (bs : List (List Nat × List Nat)) (st : AggState) :
    (runAggregator adapter bs st).resultsMap = st.resultsMap := by
  induction bs generalizing st with
  | nil => rfl
  | cons p rest ih =>
    rcases p with ⟨imgs, rids⟩
    rw [runAggregator, ih]
    simp [flushBatch, hfail imgs]

/-- With an always-failing adapter, the aggregator loop still signals every
item of every batch, in order: the loop never stops at a failed flush. -/
theorem runAggregator_fail_signaled (adapter : List Nat → Except String (List Nat))
    (e : String) (hfail : ∀ l, adapter l = Except.error e)
    (bs : List (List Nat × List Nat)) (st : AggState) :
    (runAggregator adapter bs st).signaled = st.signaled ++ (bs.map Prod.snd).flatten := by
  induction bs generalizing st with
  | nil => simp [runAggregator]
  | cons p rest ih =>
    rcases p with ⟨imgs, rids⟩
    rw [runAggregator, ih]
    simp [flushBatch, hfail imgs, List.append_assoc]

/-- C8: an adapter failure on one batch neither terminates nor deadlocks the
aggregator loop (the exception handler at main_batch.py lines 175-178 is
inside the `while True` body): every item of every batch — including batches
after a failed one — is signaled. If the adapter always fails, no result is
ever stored, so the woken caller pops nothing, falls back to a direct call
(line 298), and the exception raised there is turned by the handler
(lines 260-266) into a 500 error response: every request gets an error answer
instead of hanging. -/
theorem C8_aggregator_survives_failures
    (adapter : List Nat → Except String (List Nat)) (e : String)
    (batches : List (List Nat × List Nat)) (imgs0 rids0 : List Nat) (rid img : Nat)
    (hfail : ∀ l, adapter l = Except.error e)
    (hb : (imgs0, rids0) ∈ batches) (hr : rid ∈ rids0) :
    rid ∈ (runAggregator adapter batches ⟨[], []⟩).signaled ∧
    mapLookup (runAggregator adapter batches ⟨[], []⟩).resultsMap rid = none ∧
    callerFinish adapter img
      (mapLookup (runAggregator adapter batches ⟨[], []⟩).resultsMap rid)
      = HandlerResponse.err 500 e := by
  have hmap : (runAggregator adapter batches ⟨[], []⟩).resultsMap = [] :=
    runAggregator_fail_resultsMap adapter e hfail batches ⟨[], []⟩
  have hnone : mapLookup (runAggregator adapter batches ⟨[], []⟩).resultsMap rid = none := by
    rw [hmap]; rfl
  refine ⟨?_, hnone, ?_⟩
  · rw [runAggregator_fail_signaled adapter e hfail batches ⟨[], []⟩]
    have : rid ∈ (batches.map Prod.snd).flatten :=
      List.mem_flatten.mpr ⟨rids0, List.mem_map_of_mem Prod.snd hb, hr⟩
    simpa using this
  · rw [hnone]
    simp [callerFinish, hfail [img]]

/-- Witness for C8: one batch, one request, an adapter that always raises. -/
theorem C8_aggregator_survives_failures_witness :
    7 ∈ (runAggregator (fun _ => Except.error "x") [([3], [7])] ⟨[], []⟩).signaled ∧
    mapLookup (runAggregator (fun _ => Except.error "x") [([3], [7])] ⟨[], []⟩).resultsMap 7
      = none ∧
    callerFinish (fun _ => Except.error "x") 3
      (mapLookup (runAggregator (fun _ => Except.error "x") [([3], [7])] ⟨[], []⟩).resultsMap 7)
      = HandlerResponse.err 500 "x" :=
  C8_aggregator_survives_failures (fun _ => Except.error "x") "x"
    [([3], [7])] [3] [7] 7 3 (fun _ => rfl) (by decide) (by decide)

/-- C5: whenever the queue rejects the item (queue.Full at main_batch.py
line 285) or the post-wait pop finds no delivered result (line 296), the gate
calls `_detect_batch` directly on the single-item batch made of the caller's
own input and returns its result: the caller always receives an answer. -/
theorem C5_fallback_single_item (mr : List Nat → List Nat) (post : Nat → Nat)
    (img : Nat) (accepted : Bool) (popped : Option Nat)
    (hfb : accepted = false ∨ popped = none) :
    processWithBatch mr post img accepted popped = post ((mr [img]).getD 0 0) := by
  have hdb : ((detectBatch mr post [img]).1).getD 0 0 = post ((mr [img]).getD 0 0) := by
    simp [detectBatch]
  rcases hfb with h | h
  · subst h
    simpa [processWithBatch] using hdb
  · subst h
    cases accepted <;> simpa [processWithBatch] using hdb

/-- Witness for C5 at a rejected offer with a concrete single-item adapter. -/
theorem C5_fallback_single_item_witness :
    processWithBatch (fun l => l.map fun x => x * 2) (fun x => x + 1) 5 false none = 11 :=
  C5_fallback_single_item (fun l => l.map fun x => x * 2) (fun x => x + 1)
    5 false none (Or.inl rfl)

/-- When every pending arrival falls strictly inside the current window and
there are fewer of them than the batch size, the collection loop takes all of
them and flushes exactly at the window deadline. -/
theorem collect_full_window (bs deadline : Nat) (as : List Nat) :
    ∀ (taken : List Nat) (now : Nat),
    taken.length + as.length < bs → now < deadline →
    (∀ a ∈ as, a < deadline) → taken ++ as ≠ [] →
    collect bs deadline taken now as = some (taken ++ as, deadline, []) := by
  induction as with
  | nil =>
    intro taken now hlen hnow _ hne
    have ht : taken ≠ [] := by simpa using hne
    have h0 : ¬ taken.length = 0 := by simpa [List.length_eq_zero] using ht
    have hbs : ¬ bs ≤ taken.length := by omega
    simp only [collect, if_neg h0, if_neg hbs, List.append_nil]
    rw [Nat.max_eq_right (Nat.le_of_lt hnow)]
  | cons a rest ih =>
    intro taken now hlen hnow hin hne
    have hbs : ¬ bs ≤ taken.length := by simp at hlen; omega
    have hnb : ¬ (deadline ≤ now ∧ 0 < taken.length) := by omega
    have ha : a ≤ deadline ∨ taken.length = 0 :=
      Or.inl (Nat.le_of_lt (hin a (List.mem_cons_self a rest)))
    simp only [collect, if_neg hbs, if_neg hnb, if_pos ha]
    rw [ih (taken ++ [a]) (max now a)
      (by simp at hlen ⊢; omega)
      (Nat.max_lt.mpr ⟨hnow, hin a (List.mem_cons_self a rest)⟩)
      (fun x hx => hin x (List.mem_cons_of_mem a hx))
      (by simp)]
    simp

/-- An idle cycle with no pending arrival produces no batch. -/
theorem cyclesAux_nil (bs t : Nat) (fuel s : Nat) : cyclesAux bs t fuel s [] = [] := by
  cases fuel <;> rfl

/-- C2 amended: the flush timer measures time since the top of the collection
cycle (main_batch.py line 140), not since the first item of the batch. When the
cycle begins at `start` and every arrival lands strictly within
`start + flush_timeout`, with fewer arrivals than `max_batch_size`, exactly one
batch containing all of them is flushed at `start + flush_timeout`; in
particular the spec scenario holds when the cycle starts together with the
submissions (see the witness), while an item arriving after the cycle deadline
is flushed immediately (see the counterexample). -/
theorem C2_cycle_timer_flush (bs t start : Nat) (as : List Nat)
    (hne : as ≠ []) (hlt : as.length < bs) (ht : 0 < t)
    (hin : ∀ a ∈ as, a < start + t) :
    cycles bs t start as = [(as, start + t)] := by
  have hc := collect_full_window bs (start + t) as [] start
    (by simpa using hlt) (by omega) hin (by simpa using hne)
  rw [cycles]
  cases as with
  | nil => exact absurd rfl hne
  | cons a rest =>
    simp only [List.length_cons, cyclesAux, hc]
    simp only [List.nil_append]
    rw [cyclesAux_nil]

/-- Witness for the amended C2: the spec scenario with the cycle starting at
t=0 — max_batch_size 4, flush_timeout 50 ms, three requests at t=0, no fourth:
exactly one batch of size 3 flushed at t=50 ms. -/
theorem C2_cycle_timer_flush_witness :
    cycles 4 50 0 [0, 0, 0] = [([0, 0, 0], 50)] :=
  C2_cycle_timer_flush 4 50 0 [0, 0, 0] (by decide) (by decide) (by decide) (by decide)

/-- C2 counterexample: with max_batch_size 4 and flush_timeout 50 ms, a cycle
that started at t=0 and receives three simultaneous requests at t=100 flushes
a first batch of size 1 immediately at t=100 — 0 ms after its first item, not
50 ms after — and the remaining two requests end up in a second batch at
t=150: the timer was not started at the first item, and the three same-time
requests are not executed as one batch of size 3. -/
theorem C2_flush_timer_counterexample :
    cycles 4 50 0 [100, 100, 100] = [([100], 100), ([100, 100], 150)] ∧
    100 < 100 + 50 := by
  exact ⟨rfl, by omega⟩

/-- When the queue is bounded (positive maxsize), one step never pushes the
occupancy past maxsize. -/
theorem qstep_le (maxsize s : Nat) (h : 0 < maxsize) (hs : s ≤ maxsize) (op : QOp) :
    qstep maxsize s op ≤ maxsize := by
  cases op with
  | offer =>
    rw [qstep]
    split
    · next hacc =>
      have : maxsize = 0 ∨ s < maxsize := by simpa [queueAccepts] using hacc
      omega
    · exact hs
  | take =>
    show s - 1 ≤ maxsize
    omega

theorem foldl_qstep_le (maxsize : Nat) (h : 0 < maxsize) :
    ∀ (ops : List QOp) (s : Nat), s ≤ maxsize → ops.foldl (qstep maxsize) s ≤ maxsize := by
  intro ops
  induction ops with
  | nil => intro s hs; exact hs
  | cons op rest ih =>
    intro s hs
    exact ih (qstep maxsize s op) (qstep_le maxsize s h hs op)

/-- C3 amended: main_optimized.py bounds its intake queue at MAX_QUEUE_SIZE
(default 100, line 33): from an empty queue, no sequence of offers and takes
ever puts more than 100 items in it, and 150 simultaneous offers with no
consumer progress admit exactly 100 and reject exactly 50 (each rejection
taking the direct fallback). main_batch.py, by contrast, builds an unbounded
queue — see the counterexample. -/
theorem C3_bounded_queue_main_optimized :
    (∀ ops : List QOp, qrun (maxQueueSize none) ops ≤ maxQueueSize none) ∧
    runOffers (maxQueueSize none) 150 = (100, 50) := by
  constructor
  · intro ops
    exact foldl_qstep_le (maxQueueSize none) (by decide) ops 0 (by decide)
  · decide

/-- C3 counterexample: main_batch.py line 31 builds `queue.Queue()` — maxsize
0, unbounded. 150 simultaneous submissions are all admitted: the queue
occupancy reaches 150 (exceeding 100) and no submission is rejected to the
fallback path, contradicting the claimed 100/50 split and the claimed bound. -/
theorem C3_unbounded_queue_counterexample :
    qrun mainBatchQueueMaxsize (List.replicate 150 QOp.offer) = 150 ∧
    runOffers mainBatchQueueMaxsize 150 = (150, 0) := by
  decide

/-- C4: the single-flight claim fails on the code. The schedule in which a
fallback caller (main_batch.py line 288 or 298) invokes `_detect_batch` while
the aggregator thread is inside its own `_detect_batch` call (line 163) is a
genuine merge of the two threads' event sequences, respects the only lock in
the module (map_lock, which neither path holds across the model call), and
contains an instant with two model invocations in flight. -/
theorem C4_single_flight_violation :
    overlappingTrace ∈ merges aggFlushProg fallbackProg ∧
    lockOk overlappingTrace = true ∧
    hasOverlap overlappingTrace = true := by
  decide

/-- C7 counterexample: main_batch.py line 27 defaults BATCH_SIZE to 4 when the
environment variable is unset, and line 81 therefore starts the aggregator
thread: aggregation is enabled by default there, not disabled. -/
theorem C7_main_batch_default_counterexample :
    mainBatchBatchSize none = 4 ∧ mainBatchStartsAggregator none = true := by
  decide

/-- C7 amended: in main_optimized.py an unset BATCH_SIZE defaults to 1,
USE_DYNAMIC_BATCH is false, no aggregator thread is started and every request
takes the direct, unqueued path; in main_batch.py the unset default is 4, so
the aggregator thread is started there. -/
theorem C7_default_batch_config :
    mainOptimizedBatchSize none = 1 ∧ useDynamicBatch none = false ∧
    mainOptimizedHandlerPath none = ExecPath.direct ∧
    mainBatchBatchSize none = 4 := by
  decide

end Faas
